import Mathlib

/-!
Formal model of the SimpleMail server (github.com/Carloslauriano/SimpleMail):
a shallow embedding of the storage engine (`src/storage/sqlite.go`,
`src/storage/postgres.go`, the shared types of the `storage` package) and of
the protocol-facing session adapters (`src/server/imap.go`, `src/server/smtp.go`,
and the POP3 server in `src/config/config.go`), together with theorems settling
the specification's claims about them.

The database is modelled as explicit state: one list of rows per table plus an
auto-increment counter per table.  Inserts enforce the uniqueness constraints
declared in `createSchema`.  Both backends declare `ON DELETE CASCADE` foreign
keys, but only the Postgres engine enforces them: `SQLiteStorage.Open` calls
`sql.Open("sqlite3", s.path)` with no `_foreign_keys` option and the code never
issues `PRAGMA foreign_keys = ON`, and SQLite leaves foreign-key enforcement
OFF by default — so on the SQLite backend every DELETE removes only the
directly targeted row.  The deletes are therefore modelled per backend:
`DeleteUser`/`DeleteMailbox`/`DeleteMessage` with the enforced cascades as on
Postgres, and `SQLiteStorage.DeleteUser`/`SQLiteStorage.DeleteMailbox`/
`SQLiteStorage.DeleteMessage` as row-only deletes.  Fallible SQL statements
are modelled with
`Except`; where a claim depends on I/O failure of an individual statement
(`database/sql` may return an error from any `Exec`/`QueryRow` call), the
embedding takes an explicit oracle saying which statement fails.
-/

namespace storage

/-- Error taxonomy of the storage layer and the protocol engines:
`userNotFound`/`mailboxNotFound`/`messageNotFound` embed the `ErrUserNotFound`,
`ErrMailboxNotFound`, `ErrMessageNotFound` sentinel errors; `uniqueViolation`
is the SQL error produced by a violated UNIQUE constraint; `storeFailure` is an
I/O error of the underlying engine; `invalidPassword` embeds the
"senha inválida" error of `AuthenticateUser`; `tooLarge` is the submission
engine's rejection of an oversized payload. -/
inductive Err where
  | userNotFound
  | mailboxNotFound
  | messageNotFound
  | uniqueViolation
  | storeFailure
  | invalidPassword
  | tooLarge
deriving Repr, DecidableEq

/-- Embeds the `User` row type of `src/unnamed/part_000` (the `storage` package
model types); timestamps are modelled as integers. -/
structure User where
  id : Int
  username : String
  password : String
  name : String
  email : String
  created : Int
  updated : Int
deriving Repr, DecidableEq

/-- Embeds the `Mailbox` row type of the `storage` package. -/
structure Mailbox where
  id : Int
  userID : Int
  name : String
  path : String
deriving Repr, DecidableEq

/-- Embeds the `Message` row type of the `storage` package.  `body` and
`rawData` are byte strings modelled as character lists; `uid` is the stored
per-mailbox `uid` column (a Go `uint32`); `date`/`created` are timestamps
modelled as integers. -/
structure Message where
  id : Int
  mailboxID : Int
  uid : Nat
  from_addr : String
  to_addr : String
  cc : String
  subject : String
  date : Int
  body : List Char
  rawData : List Char
  flags : String
  size : Int
  seen : Bool
  deleted : Bool
  draft : Bool
  created : Int
deriving Repr, DecidableEq

/-- Embeds the `Attachment` row type of the `storage` package. -/
structure Attachment where
  id : Int
  messageID : Int
  filename : String
  mimeType : String
  data : List Char
  size : Int
  created : Int
deriving Repr, DecidableEq

/-- The database state shared by both backends: the four tables created by
`createSchema` (`users`, `mailboxes`, `messages`, `attachments`) and the
auto-increment counter of each table's `id` primary key.  Rows are kept in
insertion order. -/
structure DB where
  users : List User := []
  mailboxes : List Mailbox := []
  messages : List Message := []
  attachments : List Attachment := []
  nextUserID : Int := 1
  nextMailboxID : Int := 1
  nextMessageID : Int := 1
  nextAttachmentID : Int := 1
deriving Repr, DecidableEq

/-- The empty database, as produced by `createSchema` on a fresh store. -/
def emptyDB : DB := {}

/-- Embeds `SQLiteStorage.GetUser` / `PostgresStorage.GetUser`: select the row
with the given username, or `ErrUserNotFound`. -/
def GetUser (db : DB) (username : String) : Except Err User :=
  match db.users.find? (fun u => u.username == username) with
  | some u => .ok u
  | none => .error .userNotFound

/-- Embeds `AuthenticateUser` (identical in both backends): fetch the user by
name, then compare the stored password to the supplied one by plain string
equality. -/
def AuthenticateUser (db : DB) (username password : String) : Except Err User :=
  match GetUser db username with
  | .error e => .error e
  | .ok u => if u.password != password then .error .invalidPassword else .ok u

/-- Embeds `CreateMailbox` (identical logic in both backends): one INSERT into
`mailboxes`.  `execOK` is the statement-failure oracle: `false` models the
underlying `Exec` returning an I/O error (state unchanged).  Otherwise the
UNIQUE(user_id, name) constraint is enforced, and on success the row is
appended with the next auto-increment id. -/
def CreateMailbox (db : DB) (execOK : Bool) (userID : Int) (name path : String) :
    DB × Except Err Int :=
  if !execOK then (db, .error .storeFailure)
  else if db.mailboxes.any (fun mb => mb.userID == userID && mb.name == name) then
    (db, .error .uniqueViolation)
  else
    let id := db.nextMailboxID
    ({ db with mailboxes := db.mailboxes ++ [⟨id, userID, name, path⟩],
               nextMailboxID := id + 1 },
     .ok id)

/-- The default mailbox names provisioned by `CreateUser`, in source order. -/
def defaultMailboxNames : List String := ["INBOX", "Sent", "Drafts", "Trash"]

/-- The default-mailbox loop at the end of `CreateUser`: create each named
mailbox in order for user `userID`; stop and return the error of the first
failing creation.  `execs` is the statement-failure oracle, consulted at index
`k` for the k-th statement of the enclosing `CreateUser` call. -/
def createDefaultMailboxes (execs : Nat → Bool) (userID : Int) :
    DB → Nat → List String → DB × Except Err Int
  | db, _, [] => (db, .ok userID)
  | db, k, n :: rest =>
    match CreateMailbox db (execs k) userID n n with
    | (db1, .ok _) => createDefaultMailboxes execs userID db1 (k + 1) rest
    | (db1, .error e) => (db1, .error e)

/-- Embeds `CreateUser` (identical logic in both backends): INSERT the user row
(statement 0 of the oracle; UNIQUE constraints on `username` and `email`
enforced), then create the four default mailboxes `INBOX`, `Sent`, `Drafts`,
`Trash` one by one (statements 1..4), returning the first error encountered.
There is no enclosing transaction: each statement is its own durable step. -/
def CreateUser (db : DB) (now : Int) (execs : Nat → Bool)
    (username password name email : String) : DB × Except Err Int :=
  if !execs 0 then (db, .error .storeFailure)
  else if db.users.any (fun u => u.username == username || u.email == email) then
    (db, .error .uniqueViolation)
  else
    let id := db.nextUserID
    let db1 : DB :=
      { db with users := db.users ++ [⟨id, username, password, name, email, now, now⟩],
                nextUserID := id + 1 }
    createDefaultMailboxes execs id db1 1 defaultMailboxNames

/-- Embeds `PostgresStorage.DeleteUser`: DELETE the user row; the schema's
`ON DELETE CASCADE` foreign keys, which the Postgres engine enforces, remove
the user's mailboxes, the messages of those mailboxes, and the attachments of
those messages.  The SQLite backend issues the identical DELETE but never
enables foreign-key enforcement, so there the cascade is inert — see
`SQLiteStorage.DeleteUser`. -/
def DeleteUser (db : DB) (userID : Int) : DB :=
  let deadMbs := db.mailboxes.filter (fun mb => mb.userID == userID)
  let deadMsgs := db.messages.filter (fun r => deadMbs.any (fun mb => mb.id == r.mailboxID))
  { db with
    users := db.users.filter (fun u => !(u.id == userID)),
    mailboxes := db.mailboxes.filter (fun mb => !(mb.userID == userID)),
    messages := db.messages.filter (fun r => !(deadMbs.any (fun mb => mb.id == r.mailboxID))),
    attachments := db.attachments.filter (fun a => !(deadMsgs.any (fun r => r.id == a.messageID))) }

/-- Embeds `GetMailbox` (identical in both backends): select the mailbox of
`userID` with the given name, or `ErrMailboxNotFound`. -/
def GetMailbox (db : DB) (userID : Int) (name : String) : Except Err Mailbox :=
  match db.mailboxes.find? (fun mb => mb.userID == userID && mb.name == name) with
  | some mb => .ok mb
  | none => .error .mailboxNotFound

/-- Embeds `PostgresStorage.DeleteMailbox`: DELETE the mailbox row; the
enforced schema cascade removes its messages and their attachments.  On the
SQLite backend the cascade is inert — see `SQLiteStorage.DeleteMailbox`. -/
def DeleteMailbox (db : DB) (mailboxID : Int) : DB :=
  let deadMsgs := db.messages.filter (fun r => r.mailboxID == mailboxID)
  { db with
    mailboxes := db.mailboxes.filter (fun mb => !(mb.id == mailboxID)),
    messages := db.messages.filter (fun r => !(r.mailboxID == mailboxID)),
    attachments := db.attachments.filter (fun a => !(deadMsgs.any (fun r => r.id == a.messageID))) }

/-- Embeds `CreateMessage` (identical logic in both backends): one INSERT into
`messages` taking every column, including `uid`, from the caller-supplied
record (`CreateMessage` computes no UID of its own); `created` is set to the
current time and `id` to the next auto-increment id.  The
UNIQUE(mailbox_id, uid) constraint is enforced. -/
def CreateMessage (db : DB) (now : Int) (message : Message) : DB × Except Err Int :=
  if db.messages.any (fun r => r.mailboxID == message.mailboxID && r.uid == message.uid) then
    (db, .error .uniqueViolation)
  else
    let id := db.nextMessageID
    ({ db with messages := db.messages ++ [{ message with id := id, created := now }],
               nextMessageID := id + 1 },
     .ok id)

/-- Embeds `GetMessage` (identical in both backends): select by
(mailbox_id, uid), or `ErrMessageNotFound`. -/
def GetMessage (db : DB) (mailboxID : Int) (uid : Nat) : Except Err Message :=
  match db.messages.find? (fun r => r.mailboxID == mailboxID && r.uid == uid) with
  | some r => .ok r
  | none => .error .messageNotFound

/-- The `ORDER BY uid` ordering used by `ListMessages`. -/
def uidLE (a b : Message) : Prop := a.uid ≤ b.uid

instance : DecidableRel uidLE := fun a b => Nat.decLe a.uid b.uid

instance : IsTotal Message uidLE := ⟨fun a b => Nat.le_total a.uid b.uid⟩

instance : IsTrans Message uidLE := ⟨fun _ _ _ h1 h2 => Nat.le_trans h1 h2⟩

/-- Embeds `ListMessages` (identical in both backends): the rows of the given
mailbox, ordered ascending by the stored `uid` column (`ORDER BY uid`). -/
def ListMessages (db : DB) (mailboxID : Int) : List Message :=
  (db.messages.filter (fun r => r.mailboxID == mailboxID)).insertionSort uidLE

/-- Embeds `UpdateMessageFlags` (identical in both backends): one UPDATE by
message id setting the `flags` text column and the three boolean flag
columns to the supplied values. -/
def UpdateMessageFlags (db : DB) (messageID : Int) (flags : String)
    (seen deleted draft : Bool) : DB :=
  { db with messages := db.messages.map (fun r =>
      if r.id == messageID then
        { r with flags := flags, seen := seen, deleted := deleted, draft := draft }
      else r) }

/-- Embeds `PostgresStorage.DeleteMessage`: DELETE the message row by id; the
enforced schema cascade removes its attachments.  On the SQLite backend the
cascade is inert and only the message row is removed — see
`SQLiteStorage.DeleteMessage`; the removal of the message row itself is
identical on both backends. -/
def DeleteMessage (db : DB) (messageID : Int) : DB :=
  { db with
    messages := db.messages.filter (fun r => !(r.id == messageID)),
    attachments := db.attachments.filter (fun a => !(a.messageID == messageID)) }

/-- Embeds `SQLiteStorage.DeleteUser` as the SQLite backend executes it:
`SQLiteStorage.Open` opens the database with `sql.Open("sqlite3", s.path)` —
no `_foreign_keys` DSN option and no `PRAGMA foreign_keys = ON` anywhere in
the repository — so SQLite's default-off foreign-key enforcement leaves the
declared `ON DELETE CASCADE` inert and the DELETE removes only the user
row. -/
def SQLiteStorage.DeleteUser (db : DB) (userID : Int) : DB :=
  { db with users := db.users.filter (fun u => !(u.id == userID)) }

/-- Embeds `SQLiteStorage.DeleteMailbox` as the SQLite backend executes it:
with foreign-key enforcement off, only the mailbox row is removed; its
messages and their attachments remain. -/
def SQLiteStorage.DeleteMailbox (db : DB) (mailboxID : Int) : DB :=
  { db with mailboxes := db.mailboxes.filter (fun mb => !(mb.id == mailboxID)) }

/-- Embeds `SQLiteStorage.DeleteMessage` as the SQLite backend executes it:
with foreign-key enforcement off, only the message row is removed; its
attachments remain. -/
def SQLiteStorage.DeleteMessage (db : DB) (messageID : Int) : DB :=
  { db with messages := db.messages.filter (fun r => !(r.id == messageID)) }

/-- Embeds `CreateAttachment` (identical logic in both backends). -/
def CreateAttachment (db : DB) (now : Int) (attachment : Attachment) : DB × Except Err Int :=
  let id := db.nextAttachmentID
  ({ db with attachments := db.attachments ++ [{ attachment with id := id, created := now }],
             nextAttachmentID := id + 1 },
   .ok id)

/-- Embeds `GetAttachments` (identical in both backends): the attachment rows
of the given message, in insertion order. -/
def GetAttachments (db : DB) (messageID : Int) : List Attachment :=
  db.attachments.filter (fun a => a.messageID == messageID)

/-- Well-formedness of a database state, as guaranteed by the schema: primary
keys are unique, and within one mailbox no two messages share a stored `uid`
(the UNIQUE(mailbox_id, uid) constraint). -/
def DB.WF (db : DB) : Prop :=
  (db.messages.map (fun r => r.id)).Nodup ∧
  (db.mailboxes.map (fun mb => mb.id)).Nodup ∧
  db.messages.Pairwise (fun a b => a.mailboxID = b.mailboxID → a.uid ≠ b.uid)

instance (db : DB) : Decidable db.WF := by
  unfold DB.WF
  infer_instance

end storage

namespace server

/-- Go's `uint32(i)` conversion of an `int64`: the low 32 bits. -/
def u32 (i : Int) : Nat := (i % (2 ^ 32 : Int)).toNat

/-- Truncation of a `Nat` to `uint32`, for counts cast with `uint32(...)`. -/
def u32n (n : Nat) : Nat := n % 2 ^ 32

/-- The `\Seen` system flag (`imap.SeenFlag`). -/
def SeenFlag : String := "\\Seen"

/-- The `\Deleted` system flag (`imap.DeletedFlag`). -/
def DeletedFlag : String := "\\Deleted"

/-- The `\Draft` system flag (`imap.DraftFlag`). -/
def DraftFlag : String := "\\Draft"

/-- A sequence set of the mailbox protocol (`imap.SeqSet`), modelled at the
boundary by its `Contains` predicate. -/
def SeqSet : Type := Nat → Bool

/-- The fetch data items a client may request (`imap.FetchItem`); `other`
stands for any item name the adapter does not recognise. -/
inductive FetchItem where
  | envelope
  | body
  | bodyStructure
  | flags
  | internalDate
  | rfc822Size
  | uid
  | other (name : String)
deriving Repr, DecidableEq

/-- The value stored for a fetch item in `imap.Message.Items` by
`IMAPMailbox.ListMessages`. -/
inductive FetchData where
  | envelope (date : Int) (subject fromName toName messageId : String)
  | bodyStructure (mimeType mimeSubType : String) (size : Nat)
  | flagList (flags : List String)
  | internalDate (date : Int)
  | rfc822Size (size : Int)
  | uidData (id : Int)
deriving Repr, DecidableEq

/-- One entry sent on the fetch channel by `IMAPMailbox.ListMessages`
(`imap.Message`): its sequence number, its `Uid` field, and the requested
items that were assembled. -/
structure ImapMessage where
  seqNum : Nat
  uid : Nat
  items : List (FetchItem × FetchData)
deriving Repr, DecidableEq

/-- The symbolic flag list assembled by the `FetchFlags` case: `\Seen`,
`\Deleted`, `\Draft` appended in that order for each set boolean. -/
def flagTriple (msg : storage.Message) : List String :=
  ((if msg.seen then [SeenFlag] else []) ++
    (if msg.deleted then [DeletedFlag] else [])) ++
    (if msg.draft then [DraftFlag] else [])

/-- The `switch item` body of `IMAPMailbox.ListMessages`: the datum assembled
for one requested fetch item, or `none` for an unrecognised item (silently
omitted).  `FetchBody` and `FetchBodyStructure` share one case; the envelope's
`MessageId` is `fmt.Sprintf("%d", msg.ID)`; the `FetchUid` item stores
`msg.ID`. -/
def fetchItemData (msg : storage.Message) : FetchItem → Option FetchData
  | .envelope =>
      some (.envelope msg.date msg.subject msg.from_addr msg.to_addr (toString msg.id))
  | .body => some (.bodyStructure "text" "plain" msg.body.length)
  | .bodyStructure => some (.bodyStructure "text" "plain" msg.body.length)
  | .flags => some (.flagList (flagTriple msg))
  | .internalDate => some (.internalDate msg.date)
  | .rfc822Size => some (.rfc822Size msg.size)
  | .uid => some (.uidData msg.id)
  | .other _ => none

/-- Embeds `IMAPMailbox.ListMessages` (src/server/imap.go): fetch the full
ascending-uid listing of the mailbox from the store, give each message the
sequence number `i + 1`, select those whose sequence number is in `seqSet`
(the `uidMode` argument is ignored by the code), and for each selected message
emit its sequence number, `Uid: uint32(msg.ID)`, and the requested items. -/
def IMAPMailbox.ListMessages (db : storage.DB) (mailboxID : Int) (uidMode : Bool)
    (seqSet : SeqSet) (items : List FetchItem) : List ImapMessage :=
  let messages := storage.ListMessages db mailboxID
  messages.enum.filterMap (fun p =>
    let seqNum := p.1 + 1
    let msg := p.2
    if seqSet seqNum then
      some { seqNum := seqNum, uid := u32 msg.id,
             items := items.filterMap (fun it =>
               (fetchItemData msg it).map (fun d => (it, d))) }
    else none)

/-- The search criteria handled by `IMAPMailbox.SearchMessages`
(`imap.SearchCriteria`): sequence sets are modelled by their `Contains`
predicate, absent criteria by `none`; the `Since`/`Before` dates use the Go
zero time, modelled as `0`, as the "not supplied" sentinel.  The
`Header`/`Body`/`Text` criteria are present in the Go struct but the adapter's
code ignores them, so they are omitted here. -/
structure SearchCriteria where
  seqNum : Option SeqSet := none
  uid : Option SeqSet := none
  since : Int := 0
  before : Int := 0
  seen : Bool := false
  unseen : Bool := false
  deleted : Bool := false
  undeleted : Bool := false
  draft : Bool := false
  undraft : Bool := false

/-- Embeds `IMAPMailbox.SearchMessages` (src/server/imap.go): walk the
ascending-uid listing with sequence numbers `i + 1`; skip a message when a
supplied sequence-set criterion misses its sequence number, a supplied UID
criterion misses `uint32(msg.ID)`, a supplied `Since` date is strictly after
the message date (`msg.Date.Before(criteria.Since)`), a supplied `Before` date
is strictly before the message date (`msg.Date.After(criteria.Before)`), or a
requested flag criterion disagrees with the message's flags; otherwise append
`uint32(msg.ID)` (UID mode) or the sequence number. -/
def IMAPMailbox.SearchMessages (db : storage.DB) (mailboxID : Int) (uidMode : Bool)
    (crit : SearchCriteria) : List Nat :=
  let messages := storage.ListMessages db mailboxID
  messages.enum.filterMap (fun p =>
    let seqNum := p.1 + 1
    let msg := p.2
    if crit.seqNum.any (fun s => !(s seqNum)) then none
    else if crit.uid.any (fun s => !(s (u32 msg.id))) then none
    else if crit.since ≠ 0 ∧ msg.date < crit.since then none
    else if crit.before ≠ 0 ∧ msg.date > crit.before then none
    else if crit.seen ∧ ¬msg.seen then none
    else if crit.unseen ∧ msg.seen then none
    else if crit.deleted ∧ ¬msg.deleted then none
    else if crit.undeleted ∧ msg.deleted then none
    else if crit.draft ∧ ¬msg.draft then none
    else if crit.undraft ∧ msg.draft then none
    else some (if uidMode then u32 msg.id else seqNum))

/-- The status items of the mailbox protocol (`imap.StatusItem`). -/
inductive StatusItem where
  | messages
  | recent
  | unseen
  | uidNext
  | uidValidity
deriving Repr, DecidableEq

/-- The status reply (`imap.MailboxStatus`); unrequested fields keep their
zero value. -/
structure MailboxStatus where
  name : String
  messages : Nat := 0
  recent : Nat := 0
  unseen : Nat := 0
  uidNext : Nat := 0
  uidValidity : Nat := 0
deriving Repr, DecidableEq

/-- Embeds `IMAPMailbox.Status` (src/server/imap.go): list the mailbox's
messages once, then fill in each requested item: `Messages` is the listing
length, `Recent` is 0, `Unseen` counts the messages with `Seen == false`,
`UidNext` is `uint32(len(messages) + 1)`, `UidValidity` is the constant 1. -/
def IMAPMailbox.Status (db : storage.DB) (mailbox : storage.Mailbox)
    (items : List StatusItem) : MailboxStatus :=
  let messages := storage.ListMessages db mailbox.id
  items.foldl (fun st it =>
    match it with
    | .messages => { st with messages := u32n messages.length }
    | .recent => { st with recent := 0 }
    | .unseen => { st with unseen := u32n (messages.filter (fun m => !m.seen)).length }
    | .uidNext => { st with uidNext := u32n (messages.length + 1) }
    | .uidValidity => { st with uidValidity := 1 })
    { name := mailbox.name }

/-- The flag-update operation kind (`imap.FlagsOp`); the adapter's code
ignores it and always behaves as ADD. -/
inductive FlagsOp where
  | add
  | remove
  | replace
deriving Repr, DecidableEq

/-- The `for _, flag := range flags` loop of `IMAPMailbox.UpdateMessagesFlags`:
starting from the message's current booleans, set `seen`/`deleted`/`draft` to
true when the corresponding system flag occurs in the request; other flag
strings are ignored. -/
def applyFlagLoop : Bool × Bool × Bool → List String → Bool × Bool × Bool
  | s, [] => s
  | (seen, deleted, draft), f :: rest =>
    if f == SeenFlag then applyFlagLoop (true, deleted, draft) rest
    else if f == DeletedFlag then applyFlagLoop (seen, true, draft) rest
    else if f == DraftFlag then applyFlagLoop (seen, deleted, true) rest
    else applyFlagLoop (seen, deleted, draft) rest

/-- Embeds `IMAPMailbox.UpdateMessagesFlags` (src/server/imap.go): walk the
ascending-uid listing with sequence numbers `i + 1` (the `uidMode` and
`operation` arguments are ignored by the code); for each message whose
sequence number is in `seqSet`, run the flag loop on its current booleans and
store the result with `UpdateMessageFlags(msg.ID, "", seen, deleted, draft)`. -/
def IMAPMailbox.UpdateMessagesFlags (db : storage.DB) (mailboxID : Int)
    (uidMode : Bool) (seqSet : SeqSet) (operation : FlagsOp)
    (flags : List String) : storage.DB :=
  let messages := storage.ListMessages db mailboxID
  messages.enum.foldl (fun acc p =>
    let seqNum := p.1 + 1
    let msg := p.2
    if seqSet seqNum then
      let s := applyFlagLoop (msg.seen, msg.deleted, msg.draft) flags
      storage.UpdateMessageFlags acc msg.id "" s.1 s.2.1 s.2.2
    else acc) db

/-- Embeds `IMAPMailbox.Expunge` (src/server/imap.go): walk the ascending-uid
listing and delete from the store every message whose `Deleted` flag is
set. -/
def IMAPMailbox.Expunge (db : storage.DB) (mailboxID : Int) : storage.DB :=
  let messages := storage.ListMessages db mailboxID
  messages.foldl (fun acc msg =>
    if msg.deleted then storage.DeleteMessage acc msg.id else acc) db

/-- Embeds `SMTPSession.Data` (src/server/smtp.go): read the whole payload,
resolve the authenticated user's `INBOX`, and store a message whose sender and
joined recipient list come from the session, whose date is the current time,
whose body and raw bytes are both the payload, and whose size is the payload
length.  All other columns — including `UID` — keep their Go zero values. -/
def SMTPSession.Data (db : storage.DB) (now : Int) (user : storage.User)
    (from_addr : String) (rcpts : List String) (body : List Char) :
    storage.DB × Except storage.Err Int :=
  match storage.GetMailbox db user.id "INBOX" with
  | .error e => (db, .error e)
  | .ok mailbox =>
      storage.CreateMessage db now
        { id := 0, mailboxID := mailbox.id, uid := 0,
          from_addr := from_addr, to_addr := String.intercalate "," rcpts,
          cc := "", subject := "", date := now, body := body, rawData := body,
          flags := "", size := body.length, seen := false, deleted := false,
          draft := false, created := 0 }

/-- Embeds the `SMTPConfig` struct of src/config/config.go. -/
structure SMTPConfig where
  address : String := ""
  port : Int := 0
  domain : String := ""
  allowInsecure : Bool := false
  maxMessageBytes : Int := 0
deriving Repr, DecidableEq

/-- The message-size bound installed by `StartSMTPServer` (src/server/smtp.go):
the literal `1024 * 1024` ("1MB"); the configuration's `max_message_bytes`
value is not consulted. -/
def StartSMTPServer.MaxMessageBytes (cfg : SMTPConfig) : Nat := 1024 * 1024

/-- Models the submission protocol engine at the boundary fixed by
`StartSMTPServer`: the engine enforces the server's `MaxMessageBytes` on the
DATA payload, rejecting an oversized payload before `Session.Data` runs;
within the bound it hands the payload to `SMTPSession.Data`. -/
def SMTPServer.ReceiveData (cfg : SMTPConfig) (db : storage.DB) (now : Int)
    (user : storage.User) (from_addr : String) (rcpts : List String)
    (body : List Char) : storage.DB × Except storage.Err Int :=
  if body.length > StartSMTPServer.MaxMessageBytes cfg then (db, .error .tooLarge)
  else SMTPSession.Data db now user from_addr rcpts body

/-- The greeting sent by `POP3Server.handleConnection`
(src/config/config.go). -/
def POP3Greeting : String := "+OK SimpleEmail POP3 server ready\r\n"

/-- Embeds `POP3Server.handleConnection` (src/config/config.go): after sending
the greeting, the loop reads each client command into a buffer and performs no
further action — the command processing (`USER`, `PASS`, `LIST`, `RETR`,
`DELE`, `QUIT`, ...) is an unimplemented stub, so no command touches the store
and no reply beyond the greeting is sent.  The result is the store state after
the session and the list of lines written to the client. -/
def POP3Server.handleConnection (db : storage.DB) (inputs : List String) :
    storage.DB × List String :=
  (inputs.foldl (fun acc _ => acc) db, [POP3Greeting])

end server

instance {e a : Type} [DecidableEq e] [DecidableEq a] : DecidableEq (Except e a) := fun x y =>
  match x, y with
  | .ok v, .ok w =>
      if h : v = w then isTrue (by rw [h]) else isFalse (by intro hc; cases hc; exact h rfl)
  | .error v, .error w =>
      if h : v = w then isTrue (by rw [h]) else isFalse (by intro hc; cases hc; exact h rfl)
  | .ok _, .error _ => isFalse (by intro hc; cases hc)
  | .error _, .ok _ => isFalse (by intro hc; cases hc)

/-- The all-statements-succeed oracle. -/
def allOK : Nat → Bool := fun _ => true

/-- A fresh store holding one user `alice` with her four default mailboxes
(`INBOX` has id 1), as produced by `CreateUser` with no statement failure. -/
def aliceDB : storage.DB :=
  (storage.CreateUser storage.emptyDB 0 allOK "alice" "secret" "Alice" "alice@example.com").1

/-- The `alice` user row of `aliceDB`. -/
def aliceUser : storage.User :=
  match storage.GetUser aliceDB "alice" with
  | .ok u => u
  | .error _ => ⟨0, "", "", "", "", 0, 0⟩

/-- The store state after one SMTP submission into alice's `INBOX`. -/
def c1step1 : storage.DB × Except storage.Err Int :=
  server.SMTPSession.Data aliceDB 0 aliceUser "bob@example.com" ["alice@example.com"]
    ['h', 'i']

/-- The result of a second SMTP submission into the same `INBOX`. -/
def c1step2 : storage.DB × Except storage.Err Int :=
  server.SMTPSession.Data c1step1.1 1 aliceUser "bob@example.com" ["alice@example.com"]
    ['y', 'o']

/-- The largest stored UID among a mailbox's messages (0 when empty), as the
specification's "maximum existing UID" reads. -/
def specMaxUID (db : storage.DB) (mailboxID : Int) : Nat :=
  ((storage.ListMessages db mailboxID).map (fun r => r.uid)).foldr max 0

/-- alice's store after two messages (UIDs 1 and 2, ids 1 and 2) were created
in `INBOX` and the first one was deleted, leaving a UID gap. -/
def c5db : storage.DB :=
  let base : storage.Message :=
    { id := 0, mailboxID := 1, uid := 1, from_addr := "bob@example.com",
      to_addr := "alice@example.com", cc := "", subject := "", date := 0,
      body := [], rawData := [], flags := "", size := 0, seen := false,
      deleted := false, draft := false, created := 0 }
  let db1 := (storage.CreateMessage aliceDB 0 base).1
  let db2 := (storage.CreateMessage db1 0 { base with uid := 2 }).1
  storage.DeleteMessage db2 1

/-- The `INBOX` mailbox row of `c5db`. -/
def c5inbox : storage.Mailbox :=
  match storage.GetMailbox c5db 1 "INBOX" with
  | .ok mb => mb
  | .error _ => ⟨0, 0, "", ""⟩

/-- The statement-failure oracle that fails the third default-mailbox
creation (`Drafts`) of a `CreateUser` call. -/
def c2execs : Nat → Bool := fun k => !(k == 3)

/-- The conjunction of all supplied search criteria, as the specification
reads them on the code's semantics: a supplied sequence set must contain the
sequence number; a supplied UID set must contain `uint32(msg.ID)`; a supplied
since-date excludes exactly the messages dated strictly earlier; a supplied
before-date excludes exactly the messages dated strictly later (a message
dated exactly the before-date is retained); each requested flag criterion must
agree with the message's flag. -/
def searchCriteriaAccepts (crit : server.SearchCriteria) (seqNum : Nat)
    (msg : storage.Message) : Bool :=
  (match crit.seqNum with | some s => s seqNum | none => true) &&
  ((match crit.uid with | some s => s (server.u32 msg.id) | none => true) &&
  ((crit.since == 0 || decide (crit.since ≤ msg.date)) &&
  ((crit.before == 0 || decide (msg.date ≤ crit.before)) &&
  ((!crit.seen || msg.seen) &&
  ((!crit.unseen || !msg.seen) &&
  ((!crit.deleted || msg.deleted) &&
  ((!crit.undeleted || !msg.deleted) &&
  ((!crit.draft || msg.draft) &&
  (!crit.undraft || !msg.draft)))))))))

/-- alice's store after two messages were created directly through the storage
contract in `INBOX` (mailbox 1): ids 1 and 2, stored UIDs 5 and 3, dated 10
and 4 — so the ascending-UID listing is [id 2 (date 4), id 1 (date 10)]. -/
def c4db : storage.DB :=
  let base : storage.Message :=
    { id := 0, mailboxID := 1, uid := 5, from_addr := "bob@example.com",
      to_addr := "alice@example.com", cc := "", subject := "", date := 10,
      body := [], rawData := [], flags := "", size := 0, seen := false,
      deleted := false, draft := false, created := 0 }
  let db1 := (storage.CreateMessage aliceDB 0 base).1
  (storage.CreateMessage db1 0 { base with uid := 3, date := 4 }).1

/-- An SMTP configuration with a configured 10-byte message-size limit. -/
def c9cfg : server.SMTPConfig := { maxMessageBytes := 10 }

/-- A 20-byte payload, exceeding `c9cfg`'s configured limit. -/
def c9body : List Char := List.replicate 20 'a'

/-- alice's store with two messages in `INBOX` (UIDs 1 and 2, ids 1 and 2),
the first one flagged deleted. -/
def c6db : storage.DB :=
  let base : storage.Message :=
    { id := 0, mailboxID := 1, uid := 1, from_addr := "bob@example.com",
      to_addr := "alice@example.com", cc := "", subject := "", date := 0,
      body := [], rawData := [], flags := "", size := 0, seen := false,
      deleted := true, draft := false, created := 0 }
  let db1 := (storage.CreateMessage aliceDB 0 base).1
  (storage.CreateMessage db1 0 { base with uid := 2, deleted := false }).1

/-- The effect of one selected listing entry `p` on one table row `r` inside
`UpdateMessagesFlags`: when `p` is selected by the sequence set and the row is
the one `UpdateMessageFlags` targets by id, the row's booleans are replaced by
the flag loop's result on `p`'s snapshot and the `flags` column by `""`. -/
def flagRowStep (seqSet : server.SeqSet) (flags : List String)
    (r : storage.Message) (p : Nat × storage.Message) : storage.Message :=
  if seqSet (p.1 + 1) && r.id == p.2.id then
    { r with
      flags := "",
      seen := (server.applyFlagLoop (p.2.seen, p.2.deleted, p.2.draft) flags).1,
      deleted := (server.applyFlagLoop (p.2.seen, p.2.deleted, p.2.draft) flags).2.1,
      draft := (server.applyFlagLoop (p.2.seen, p.2.deleted, p.2.draft) flags).2.2 }
  else r

/-- alice's store with two unseen messages in `INBOX` (UIDs 1 and 2, ids 1
and 2). -/
def c7db : storage.DB :=
  let base : storage.Message :=
    { id := 0, mailboxID := 1, uid := 1, from_addr := "bob@example.com",
      to_addr := "alice@example.com", cc := "", subject := "", date := 0,
      body := [], rawData := [], flags := "", size := 0, seen := false,
      deleted := false, draft := false, created := 0 }
  let db1 := (storage.CreateMessage aliceDB 0 base).1
  (storage.CreateMessage db1 0 { base with uid := 2 }).1

/-- A store with two users (alice id 1, carol id 2, default mailboxes 1–4 and
5–8), one message in alice's INBOX (id 1), one message in carol's INBOX
(id 2), and one attachment (id 1) on carol's message. -/
def c8db : storage.DB :=
  let db2 := (storage.CreateUser aliceDB 0 allOK "carol" "pw" "Carol"
    "carol@example.com").1
  let msg : storage.Message :=
    { id := 0, mailboxID := 1, uid := 1, from_addr := "bob@example.com",
      to_addr := "alice@example.com", cc := "", subject := "", date := 0,
      body := [], rawData := [], flags := "", size := 0, seen := false,
      deleted := false, draft := false, created := 0 }
  let db3 := (storage.CreateMessage db2 0 msg).1
  let db4 := (storage.CreateMessage db3 0 { msg with mailboxID := 5 }).1
  (storage.CreateAttachment db4 0
    { id := 0, messageID := 2, filename := "f.txt", mimeType := "text/plain",
      data := [], size := 0, created := 0 }).1

namespace storage

theorem listMessages_perm (db : DB) (mailboxID : Int) :
    (ListMessages db mailboxID).Perm
      (db.messages.filter (fun r => r.mailboxID == mailboxID)) :=
  List.perm_insertionSort uidLE _

theorem mem_listMessages {db : DB} {mailboxID : Int} {msg : Message} :
    msg ∈ ListMessages db mailboxID ↔ msg ∈ db.messages ∧ msg.mailboxID = mailboxID := by
  rw [(listMessages_perm db mailboxID).mem_iff, List.mem_filter]
  simp

theorem listMessages_sorted (db : DB) (mailboxID : Int) :
    (ListMessages db mailboxID).Sorted uidLE :=
  List.sorted_insertionSort uidLE _

theorem listMessages_ids_nodup {db : DB} (h : db.WF) (mailboxID : Int) :
    ((ListMessages db mailboxID).map (fun r => r.id)).Nodup := by
  have hperm := (listMessages_perm db mailboxID).map (fun r => r.id)
  rw [hperm.nodup_iff]
  exact h.1.sublist (List.Sublist.map _ (List.filter_sublist db.messages))

theorem listMessages_sorted_strict {db : DB} (h : db.WF) (mailboxID : Int) :
    (ListMessages db mailboxID).Pairwise (fun a b => a.uid < b.uid) := by
  have hsorted := listMessages_sorted db mailboxID
  have hpw : (ListMessages db mailboxID).Pairwise
      (fun a b : Message => a.mailboxID = b.mailboxID → a.uid ≠ b.uid) := by
    have hsymm : Symmetric (fun a b : Message => a.mailboxID = b.mailboxID → a.uid ≠ b.uid) :=
      fun _a _b hab hba hu => hab hba.symm hu.symm
    rw [List.Perm.pairwise_iff (fun hab => hsymm hab) (listMessages_perm db mailboxID)]
    exact h.2.2.sublist (List.filter_sublist db.messages)
  have hboth := List.pairwise_and_iff.mpr ⟨hsorted, hpw⟩
  refine hboth.imp_of_mem ?_
  intro a b ha hb hab
  have hma := (mem_listMessages.mp ha).2
  have hmb := (mem_listMessages.mp hb).2
  exact Nat.lt_of_le_of_ne hab.1 (hab.2 (hma.trans hmb.symm))

end storage

/-- Cascade closure on the Postgres backend, whose engine enforces the
declared foreign keys: deleting a user removes all of its mailboxes, every
message of those mailboxes, and every attachment of those messages; deleting
a mailbox removes every message of the mailbox (and their attachments);
deleting a message removes every attachment of the message — absence after
deletion. -/
theorem postgres_cascade_closure (db : storage.DB) (userID mailboxID messageID : Int) :
    (∀ u ∈ (storage.DeleteUser db userID).users, u.id ≠ userID) ∧
    (∀ mb ∈ (storage.DeleteUser db userID).mailboxes, mb.userID ≠ userID) ∧
    (∀ msg ∈ (storage.DeleteUser db userID).messages,
      ∀ mb ∈ db.mailboxes, mb.userID = userID → msg.mailboxID ≠ mb.id) ∧
    (∀ att ∈ (storage.DeleteUser db userID).attachments,
      ∀ msg ∈ db.messages, ∀ mb ∈ db.mailboxes,
        mb.userID = userID → msg.mailboxID = mb.id → att.messageID ≠ msg.id) ∧
    (∀ msg ∈ (storage.DeleteMailbox db mailboxID).messages, msg.mailboxID ≠ mailboxID) ∧
    (∀ att ∈ (storage.DeleteMailbox db mailboxID).attachments,
      ∀ msg ∈ db.messages, msg.mailboxID = mailboxID → att.messageID ≠ msg.id) ∧
    (∀ att ∈ (storage.DeleteMessage db messageID).attachments, att.messageID ≠ messageID) := by
  refine ⟨?_, ?_, ?_, ?_, ?_, ?_, ?_⟩
  · intro u hu
    simp only [storage.DeleteUser, List.mem_filter, Bool.not_eq_eq_eq_not, Bool.not_true,
      beq_eq_false_iff_ne, ne_eq] at hu
    exact hu.2
  · intro mb hmb
    simp only [storage.DeleteUser, List.mem_filter, Bool.not_eq_eq_eq_not, Bool.not_true,
      beq_eq_false_iff_ne, ne_eq] at hmb
    exact hmb.2
  · intro msg hmsg mb hmb hu
    simp only [storage.DeleteUser, List.mem_filter, Bool.not_eq_eq_eq_not, Bool.not_true,
      List.any_eq_false, beq_iff_eq] at hmsg
    intro hcontra
    exact hmsg.2 mb ⟨hmb, hu⟩ hcontra.symm
  · intro att hatt msg hmsg mb hmb hu hmbid
    simp only [storage.DeleteUser, List.mem_filter, Bool.not_eq_eq_eq_not, Bool.not_true,
      List.any_eq_false, beq_iff_eq] at hatt
    intro hcontra
    refine hatt.2 msg ⟨hmsg, ?_⟩ hcontra.symm
    simp only [List.any_eq_true, List.mem_filter, beq_iff_eq]
    exact ⟨mb, ⟨hmb, hu⟩, hmbid.symm⟩
  · intro msg hmsg
    simp only [storage.DeleteMailbox, List.mem_filter, Bool.not_eq_eq_eq_not, Bool.not_true,
      beq_eq_false_iff_ne, ne_eq] at hmsg
    exact hmsg.2
  · intro att hatt msg hmsg hmbid
    simp only [storage.DeleteMailbox, List.mem_filter, Bool.not_eq_eq_eq_not, Bool.not_true,
      List.any_eq_false, beq_iff_eq] at hatt
    intro hcontra
    exact hatt.2 msg ⟨hmsg, hmbid⟩ hcontra.symm
  · intro att hatt
    simp only [storage.DeleteMessage, List.mem_filter, Bool.not_eq_eq_eq_not, Bool.not_true,
      beq_eq_false_iff_ne, ne_eq] at hatt
    exact hatt.2

/-- C1 (code bug): `CreateMessage` never assigns a UID — the first message
submitted into alice's empty `INBOX` is stored with UID 0, not UID 1, and a
second submission into the same mailbox fails outright on the
UNIQUE(mailbox_id, uid) constraint (both rows would carry UID 0), leaving the
mailbox with the UID set {0} instead of the claimed {1, 2}. -/
theorem c1_uid_never_assigned :
    c1step1.2 = .ok 1 ∧
    (storage.ListMessages c1step1.1 1).map (fun r => r.uid) = [0] ∧
    c1step2 = (c1step1.1, .error .uniqueViolation) := by
  refine ⟨by decide, by decide, by decide⟩

/-- C3 (code bug): the POP3 handler is an unimplemented stub.  A maildrop
session over a mailbox holding one message that authenticates, marks message 1
deleted and terminates gracefully with QUIT gets no reply beyond the greeting,
and the store is left completely unchanged — no command (including `DELE` and
`QUIT`) is processed, so the deferred-deletion contract the claim describes
does not exist in the code. -/
theorem c3_pop3_stub :
    server.POP3Server.handleConnection c1step1.1
        ["USER alice\r\n", "PASS secret\r\n", "DELE 1\r\n", "QUIT\r\n"]
      = (c1step1.1, [server.POP3Greeting]) ∧
    (storage.ListMessages c1step1.1 1).length = 1 := by
  refine ⟨rfl, by decide⟩

/-- C5 counterexample: in a mailbox whose only message has UID 2 (UID 1 was
deleted), `Status` reports a next-UID hint of 2 — `len(messages) + 1` — while
the claimed `max existing UID + 1` is 3.  The claim, as stated, is false at
this store state. -/
theorem c5_counterexample :
    (server.IMAPMailbox.Status c5db c5inbox [.uidNext]).uidNext
      ≠ specMaxUID c5db 1 + 1 := by
  decide

/-- C5 as amended: `Status` reports the message count of the mailbox, the
count of messages with `seen = false`, a next-UID hint equal to the message
COUNT plus 1 (not max UID + 1 — the two differ as soon as the UID sequence has
gaps), and the constant UID-validity value 1, each cast to `uint32`. -/
theorem c5_status_semantics (db : storage.DB) (mb : storage.Mailbox) :
    server.IMAPMailbox.Status db mb [.messages, .recent, .unseen, .uidNext, .uidValidity]
      = { name := mb.name,
          messages := server.u32n (storage.ListMessages db mb.id).length,
          recent := 0,
          unseen := server.u32n
            ((storage.ListMessages db mb.id).filter (fun m => !m.seen)).length,
          uidNext := server.u32n ((storage.ListMessages db mb.id).length + 1),
          uidValidity := 1 } ∧
    (storage.ListMessages db mb.id).length
      = (db.messages.filter (fun r => r.mailboxID == mb.id)).length := by
  exact ⟨rfl, (storage.listMessages_perm db mb.id).length_eq⟩

namespace storage

theorem CreateMailbox_users (db : DB) (execOK : Bool) (userID : Int) (name path : String) :
    ((CreateMailbox db execOK userID name path).1).users = db.users := by
  unfold CreateMailbox
  split
  · rfl
  · split <;> rfl

theorem CreateMailbox_extends (db : DB) (execOK : Bool) (userID : Int) (name path : String) :
    db.mailboxes <+: ((CreateMailbox db execOK userID name path).1).mailboxes := by
  unfold CreateMailbox
  split
  · exact List.prefix_rfl
  · split
    · exact List.prefix_rfl
    · exact List.prefix_append _ _

theorem CreateMailbox_ok {db : DB} {execOK : Bool} {userID : Int} {name path : String} {v : Int}
    (h : (CreateMailbox db execOK userID name path).2 = .ok v) :
    ((CreateMailbox db execOK userID name path).1).mailboxes
      = db.mailboxes ++ [⟨db.nextMailboxID, userID, name, path⟩] := by
  unfold CreateMailbox at h ⊢
  by_cases h1 : (!execOK) = true
  · rw [if_pos h1] at h
    cases h
  · rw [if_neg h1] at h ⊢
    by_cases h2 : (db.mailboxes.any fun mb => mb.userID == userID && mb.name == name) = true
    · rw [if_pos h2] at h
      cases h
    · rw [if_neg h2]

theorem createDefaultMailboxes_users (execs : Nat → Bool) (userID : Int) :
    ∀ (names : List String) (db : DB) (k : Nat),
      ((createDefaultMailboxes execs userID db k names).1).users = db.users := by
  intro names
  induction names with
  | nil => intro db k; rfl
  | cons n rest ih =>
    intro db k
    unfold createDefaultMailboxes
    rcases hcm : CreateMailbox db (execs k) userID n n with ⟨db1, r⟩
    have husers : db1.users = db.users := by
      have h := CreateMailbox_users db (execs k) userID n n
      rw [hcm] at h
      exact h
    cases r with
    | ok v => simpa [hcm, husers] using ih db1 (k + 1)
    | error e => simp [hcm, husers]

theorem createDefaultMailboxes_extends (execs : Nat → Bool) (userID : Int) :
    ∀ (names : List String) (db : DB) (k : Nat),
      db.mailboxes <+: ((createDefaultMailboxes execs userID db k names).1).mailboxes := by
  intro names
  induction names with
  | nil => intro db k; exact List.prefix_rfl
  | cons n rest ih =>
    intro db k
    unfold createDefaultMailboxes
    rcases hcm : CreateMailbox db (execs k) userID n n with ⟨db1, r⟩
    have hpre : db.mailboxes <+: db1.mailboxes := by
      have h := CreateMailbox_extends db (execs k) userID n n
      rw [hcm] at h
      exact h
    cases r with
    | ok v => simpa [hcm] using hpre.trans (ih db1 (k + 1))
    | error e => simpa [hcm] using hpre

theorem createDefaultMailboxes_ok_names (execs : Nat → Bool) (userID : Int) :
    ∀ (names : List String) (db : DB) (k : Nat) (v : Int),
      (createDefaultMailboxes execs userID db k names).2 = .ok v →
      ∀ n ∈ names,
        ∃ mb ∈ ((createDefaultMailboxes execs userID db k names).1).mailboxes,
          mb.userID = userID ∧ mb.name = n ∧ mb.path = n := by
  intro names
  induction names with
  | nil => intro db k v _ n hn; cases hn
  | cons m rest ih =>
    intro db k v hok n hn
    unfold createDefaultMailboxes at hok ⊢
    rcases hcm : CreateMailbox db (execs k) userID m m with ⟨db1, r⟩
    rw [hcm] at hok
    cases r with
    | error e => cases hok
    | ok w =>
      rcases List.mem_cons.mp hn with hn | hn
      · subst hn
        have h2 := @CreateMailbox_ok db (execs k) userID n n w
        rw [hcm] at h2
        have hmbs : db1.mailboxes = db.mailboxes ++ [⟨db.nextMailboxID, userID, n, n⟩] :=
          h2 rfl
        refine ⟨⟨db.nextMailboxID, userID, n, n⟩, ?_, rfl, rfl, rfl⟩
        have hmem : (⟨db.nextMailboxID, userID, n, n⟩ : Mailbox) ∈ db1.mailboxes := by
          rw [hmbs]; simp
        exact (createDefaultMailboxes_extends execs userID rest db1 (k + 1)).subset hmem
      · exact ih db1 (k + 1) v hok n hn

end storage

/-- C2 counterexample: when the creation of the third default mailbox fails,
`CreateUser` does return an error — but the user row and the already-created
`INBOX` and `Sent` mailboxes remain persisted, so the claimed all-or-nothing
provisioning is false at this input. -/
theorem c2_counterexample :
    (storage.CreateUser storage.emptyDB 0 c2execs "alice" "secret" "Alice"
        "alice@example.com").2 = .error .storeFailure ∧
    ((storage.CreateUser storage.emptyDB 0 c2execs "alice" "secret" "Alice"
        "alice@example.com").1).users ≠ [] ∧
    (((storage.CreateUser storage.emptyDB 0 c2execs "alice" "secret" "Alice"
        "alice@example.com").1).mailboxes.map (fun mb => mb.name)) = ["INBOX", "Sent"] := by
  refine ⟨by decide, by decide, by decide⟩

/-- C2 as amended: `CreateUser` is not atomic.  If the user INSERT itself
fails, nothing is persisted and the error is returned; once the user INSERT
has succeeded the user row is persisted regardless of later failures; the
existing mailboxes are never removed and each default-mailbox INSERT that ran
before a failure remains persisted (no rollback); only a fully successful call
guarantees all four default mailboxes exist. -/
theorem c2_create_user_not_atomic (db : storage.DB) (now : Int) (execs : Nat → Bool)
    (username password name email : String) :
    (execs 0 = false →
      storage.CreateUser db now execs username password name email
        = (db, .error .storeFailure)) ∧
    (execs 0 = true →
      db.users.any (fun u => u.username == username || u.email == email) = false →
      ((storage.CreateUser db now execs username password name email).1).users
        = db.users ++ [⟨db.nextUserID, username, password, name, email, now, now⟩]) ∧
    (db.mailboxes <+:
      ((storage.CreateUser db now execs username password name email).1).mailboxes) ∧
    (∀ v, (storage.CreateUser db now execs username password name email).2 = .ok v →
      ∀ n ∈ storage.defaultMailboxNames,
        ∃ mb ∈ ((storage.CreateUser db now execs username password name email).1).mailboxes,
          mb.userID = db.nextUserID ∧ mb.name = n ∧ mb.path = n) := by
  refine ⟨?_, ?_, ?_, ?_⟩
  · intro h0
    unfold storage.CreateUser
    rw [if_pos (by simp [h0])]
  · intro h0 hfresh
    unfold storage.CreateUser
    rw [if_neg (by simp [h0]), if_neg (by simp [hfresh])]
    rw [storage.createDefaultMailboxes_users]
  · unfold storage.CreateUser
    by_cases h1 : (!execs 0) = true
    · rw [if_pos h1]
    · rw [if_neg h1]
      by_cases h2 : (db.users.any fun u => u.username == username || u.email == email) = true
      · rw [if_pos h2]
      · rw [if_neg h2]
        exact storage.createDefaultMailboxes_extends execs db.nextUserID
          storage.defaultMailboxNames
          { db with
            users := db.users
              ++ [⟨db.nextUserID, username, password, name, email, now, now⟩],
            nextUserID := db.nextUserID + 1 } 1
  · intro v hok
    unfold storage.CreateUser at hok ⊢
    by_cases h1 : (!execs 0) = true
    · rw [if_pos h1] at hok
      cases hok
    · rw [if_neg h1] at hok ⊢
      by_cases h2 : (db.users.any fun u => u.username == username || u.email == email) = true
      · rw [if_pos h2] at hok
        cases hok
      · rw [if_neg h2] at hok ⊢
        exact storage.createDefaultMailboxes_ok_names execs db.nextUserID
          storage.defaultMailboxNames
          { db with
            users := db.users
              ++ [⟨db.nextUserID, username, password, name, email, now, now⟩],
            nextUserID := db.nextUserID + 1 } 1 v hok

/-- Witness for `c2_create_user_not_atomic` at concrete inputs: a failing user
INSERT persists nothing, and a fully successful call persists the user row. -/
theorem c2_witness :
    (storage.CreateUser storage.emptyDB 0 (fun _ => false) "alice" "secret" "Alice"
        "alice@example.com" = (storage.emptyDB, .error .storeFailure)) ∧
    (((storage.CreateUser storage.emptyDB 0 allOK "alice" "secret" "Alice"
        "alice@example.com").1).users
      = storage.emptyDB.users
          ++ [⟨1, "alice", "secret", "Alice", "alice@example.com", 0, 0⟩]) :=
  ⟨(c2_create_user_not_atomic storage.emptyDB 0 (fun _ => false) "alice" "secret" "Alice"
      "alice@example.com").1 rfl,
   (c2_create_user_not_atomic storage.emptyDB 0 allOK "alice" "secret" "Alice"
      "alice@example.com").2.1 rfl (by decide)⟩

theorem filterMap_eq_filter_map {α β : Type} (f : α → Option β) (g : α → Bool) (h : α → β)
    (H : ∀ a, f a = if g a then some (h a) else none) :
    ∀ l : List α, l.filterMap f = (l.filter g).map h := by
  intro l
  induction l with
  | nil => rfl
  | cons x xs ih =>
    rw [List.filterMap_cons, List.filter_cons]
    by_cases hg : g x
    · simp only [H x, hg, if_true, List.map_cons, ih]
    · simp only [H x, hg, if_false, ih]
      simp [hg]

theorem enumFrom_pairwise_fst_lt {α : Type} (l : List α) (n : Nat) :
    (l.enumFrom n).Pairwise (fun a b => a.1 < b.1) := by
  induction l generalizing n with
  | nil => simp
  | cons x xs ih =>
    rw [List.enumFrom_cons]
    refine List.Pairwise.cons ?_ (ih (n + 1))
    intro p hp
    rcases p with ⟨i, a⟩
    have := (List.mk_mem_enumFrom_iff_le_and_getElem?_sub).mp hp
    omega

theorem opt_if_chain {β : Type} (c : Prop) [Decidable c] (b : Bool) (o : Option β)
    (bs : Bool) (v : β) (h : ¬c ↔ b = true) (ho : o = if bs then some v else none) :
    (if c then none else o) = if b && bs then some v else none := by
  by_cases hc : c
  · have hb : b = false := by
      cases hb : b
      · rfl
      · exact absurd hc (h.mpr hb).elim
    simp [hc, hb]
  · have hb : b = true := h.mp hc
    simp [hc, hb, ho]

theorem opt_if_last {β : Type} (c : Prop) [Decidable c] (b : Bool) (v : β)
    (h : ¬c ↔ b = true) :
    (if c then none else some v) = if b then some v else none := by
  by_cases hc : c
  · have hb : b = false := by
      cases hb : b
      · rfl
      · exact absurd hc (h.mpr hb).elim
    simp [hc, hb]
  · have hb : b = true := h.mp hc
    simp [hc, hb]

theorem searchMessages_eq (db : storage.DB) (mailboxID : Int) (uidMode : Bool)
    (crit : server.SearchCriteria) :
    server.IMAPMailbox.SearchMessages db mailboxID uidMode crit
      = ((storage.ListMessages db mailboxID).enum.filter
            (fun p => searchCriteriaAccepts crit (p.1 + 1) p.2)).map
          (fun p => if uidMode then server.u32 p.2.id else p.1 + 1) := by
  unfold server.IMAPMailbox.SearchMessages
  refine filterMap_eq_filter_map _ _ _ ?_ _
  intro p
  rcases p with ⟨i, msg⟩
  rcases crit with ⟨sq, u, since, before, seen, unseen, deleted, undeleted, draft, undraft⟩
  dsimp only [searchCriteriaAccepts]
  refine opt_if_chain _ _ _ _ _ ?_ ?_
  · cases sq <;> simp [Option.any]
  refine opt_if_chain _ _ _ _ _ ?_ ?_
  · cases u <;> simp [Option.any]
  refine opt_if_chain _ _ _ _ _ ?_ ?_
  · constructor
    · intro hn
      by_cases h0 : since = (0 : Int) <;> simp [h0] at hn ⊢ <;> omega
    · intro hb hn
      rcases hn with ⟨hne, hlt⟩
      simp [hne] at hb
      omega
  refine opt_if_chain _ _ _ _ _ ?_ ?_
  · constructor
    · intro hn
      by_cases h0 : before = (0 : Int) <;> simp [h0] at hn ⊢ <;> omega
    · intro hb hn
      rcases hn with ⟨hne, hlt⟩
      simp [hne] at hb
      omega
  refine opt_if_chain _ _ _ _ _ ?_ ?_
  · by_cases hs : seen = true <;> by_cases hm : msg.seen = true <;> simp [hs, hm]
  refine opt_if_chain _ _ _ _ _ ?_ ?_
  · by_cases hs : unseen = true <;> by_cases hm : msg.seen = true <;> simp [hs, hm]
  refine opt_if_chain _ _ _ _ _ ?_ ?_
  · by_cases hs : deleted = true <;> by_cases hm : msg.deleted = true <;> simp [hs, hm]
  refine opt_if_chain _ _ _ _ _ ?_ ?_
  · by_cases hs : undeleted = true <;> by_cases hm : msg.deleted = true <;> simp [hs, hm]
  refine opt_if_chain _ _ _ _ _ ?_ ?_
  · by_cases hs : draft = true <;> by_cases hm : msg.draft = true <;> simp [hs, hm]
  refine opt_if_last _ _ _ ?_
  · by_cases hs : undraft = true <;> by_cases hm : msg.draft = true <;> simp [hs, hm]

/-- C4 counterexample: searching `c4db`'s mailbox 1 in UID mode with the sole
criterion `before = 10` must, per the claim, exclude message 1 (dated exactly
10, "strictly later than or equal") and return an ascending list — but the
code returns [2, 1]: the message dated exactly the before-date is included,
and the UID-mode result is not ascending. -/
theorem c4_counterexample :
    ¬ ((server.u32 1 ∉
          server.IMAPMailbox.SearchMessages c4db 1 true { before := 10 }) ∧
        (server.IMAPMailbox.SearchMessages c4db 1 true { before := 10 }).Sorted (· < ·)) := by
  decide

/-- C4 as amended: a message is in the search result iff it satisfies ALL
supplied criteria conjointly, where a since-date criterion excludes exactly
the messages dated strictly earlier than the given date and a before-date
criterion excludes exactly the messages dated strictly LATER than the given
date (a message dated exactly the before-date is retained); the result is
emitted in the order of the ascending-stored-UID listing, as sequence numbers
(always ascending) in sequence mode, or as `uint32(Message.ID)` values (not
necessarily ascending) in UID mode. -/
theorem c4_search_semantics (db : storage.DB) (mailboxID : Int) (uidMode : Bool)
    (crit : server.SearchCriteria) :
    (server.IMAPMailbox.SearchMessages db mailboxID uidMode crit
      = ((storage.ListMessages db mailboxID).enum.filter
            (fun p => searchCriteriaAccepts crit (p.1 + 1) p.2)).map
          (fun p => if uidMode then server.u32 p.2.id else p.1 + 1)) ∧
    (server.IMAPMailbox.SearchMessages db mailboxID false crit).Sorted (· < ·) := by
  refine ⟨searchMessages_eq db mailboxID uidMode crit, ?_⟩
  rw [searchMessages_eq]
  have hpe : (storage.ListMessages db mailboxID).enum.Pairwise (fun a b => a.1 < b.1) :=
    enumFrom_pairwise_fst_lt _ 0
  have hfil : ((storage.ListMessages db mailboxID).enum.filter
      (fun p => searchCriteriaAccepts crit (p.1 + 1) p.2)).Pairwise
        (fun a b => a.1 < b.1) :=
    hpe.sublist (List.filter_sublist _)
  refine List.Pairwise.map _ ?_ hfil
  intro a b hab
  simpa using Nat.succ_lt_succ hab

theorem imapListMessages_eq (db : storage.DB) (mailboxID : Int) (uidMode : Bool)
    (seqSet : server.SeqSet) (items : List server.FetchItem) :
    server.IMAPMailbox.ListMessages db mailboxID uidMode seqSet items
      = ((storage.ListMessages db mailboxID).enum.filter
            (fun p => seqSet (p.1 + 1))).map
          (fun p =>
            { seqNum := p.1 + 1, uid := server.u32 p.2.id,
              items := items.filterMap (fun it =>
                (server.fetchItemData p.2 it).map (fun d => (it, d))) }) := by
  unfold server.IMAPMailbox.ListMessages
  refine filterMap_eq_filter_map _ _ _ ?_ _
  intro p
  rfl

/-- C10: the mailbox adapter uses the store-local `Message.ID` — not the
stored per-mailbox `uid` column — as the protocol-level UID: every fetched
message carries `Uid = uint32(msg.ID)`, a requested UID fetch item is answered
with `msg.ID` itself, and UID-mode search results are the `uint32(msg.ID)`
values of the matching messages (with the UID criterion likewise tested
against `uint32(msg.ID)`, see `searchCriteriaAccepts`). -/
theorem c10_uid_is_message_id (db : storage.DB) (mailboxID : Int) (uidMode : Bool)
    (seqSet : server.SeqSet) (items : List server.FetchItem)
    (crit : server.SearchCriteria) :
    ((server.IMAPMailbox.ListMessages db mailboxID uidMode seqSet items).map
        (fun im => im.uid)
      = ((storage.ListMessages db mailboxID).enum.filter
            (fun p => seqSet (p.1 + 1))).map (fun p => server.u32 p.2.id)) ∧
    (∀ im ∈ server.IMAPMailbox.ListMessages db mailboxID uidMode seqSet items,
      ∀ d, (server.FetchItem.uid, d) ∈ im.items →
        ∃ msg ∈ storage.ListMessages db mailboxID,
          im.uid = server.u32 msg.id ∧ d = .uidData msg.id) ∧
    (server.IMAPMailbox.SearchMessages db mailboxID true crit
      = ((storage.ListMessages db mailboxID).enum.filter
            (fun p => searchCriteriaAccepts crit (p.1 + 1) p.2)).map
          (fun p => server.u32 p.2.id)) := by
  refine ⟨?_, ?_, ?_⟩
  · rw [imapListMessages_eq, List.map_map]
    rfl
  · intro im him d hd
    rw [imapListMessages_eq] at him
    rcases List.mem_map.mp him with ⟨p, hp, hpe⟩
    subst hpe
    simp only [List.mem_filterMap] at hd
    rcases hd with ⟨it, _hit, hsome⟩
    refine ⟨p.2, List.snd_mem_of_mem_enum (List.mem_of_mem_filter hp), rfl, ?_⟩
    cases it <;> simp [server.fetchItemData] at hsome <;> try exact hsome.symm
  · rw [searchMessages_eq]
    rfl

/-- C9 counterexample: with a configured `max_message_bytes` of 10, a 20-byte
payload must, per the claim, be rejected and not persisted — but the code
only enforces the hardcoded 1 MiB bound, so the payload is accepted and the
full 20-byte message is committed to alice's INBOX. -/
theorem c9_counterexample :
    ((c9body.length : Int) > c9cfg.maxMessageBytes) ∧
    ¬ ((server.SMTPServer.ReceiveData c9cfg aliceDB 0 aliceUser "bob@example.com"
          ["alice@example.com"] c9body).1.messages = aliceDB.messages) ∧
    ((server.SMTPServer.ReceiveData c9cfg aliceDB 0 aliceUser "bob@example.com"
        ["alice@example.com"] c9body).1.messages.map (fun r => r.size)) = [20] := by
  refine ⟨by decide, by decide, by decide⟩

/-- C9 as amended: the submission size bound is the hardcoded 1 MiB
(`1024 * 1024` bytes) installed by `StartSMTPServer`; the configured
`max_message_bytes` value is ignored.  A payload larger than 1 MiB is rejected
by the protocol engine before `Data` runs and nothing is persisted; a payload
within 1 MiB is handed to the session and, when the INBOX insert succeeds, is
committed in full (body and raw bytes equal to the entire payload, size equal
to its length — never truncated). -/
theorem c9_size_bound (cfg : server.SMTPConfig) (db : storage.DB) (now : Int)
    (user : storage.User) (from_addr : String) (rcpts : List String)
    (body : List Char) :
    (body.length > 1024 * 1024 →
      server.SMTPServer.ReceiveData cfg db now user from_addr rcpts body
        = (db, .error .tooLarge)) ∧
    (body.length ≤ 1024 * 1024 →
      server.SMTPServer.ReceiveData cfg db now user from_addr rcpts body
        = server.SMTPSession.Data db now user from_addr rcpts body) ∧
    (∀ v, (server.SMTPSession.Data db now user from_addr rcpts body).2 = .ok v →
      ∃ mb, storage.GetMailbox db user.id "INBOX" = .ok mb ∧
        (server.SMTPSession.Data db now user from_addr rcpts body).1.messages
          = db.messages
            ++ [{ id := db.nextMessageID, mailboxID := mb.id, uid := 0,
                  from_addr := from_addr,
                  to_addr := String.intercalate "," rcpts, cc := "",
                  subject := "", date := now, body := body, rawData := body,
                  flags := "", size := (body.length : Int), seen := false,
                  deleted := false, draft := false, created := now }]) := by
  refine ⟨?_, ?_, ?_⟩
  · intro hgt
    unfold server.SMTPServer.ReceiveData
    rw [if_pos]
    exact hgt
  · intro hle
    unfold server.SMTPServer.ReceiveData
    rw [if_neg]
    unfold server.StartSMTPServer.MaxMessageBytes
    omega
  · intro v hok
    unfold server.SMTPSession.Data at hok ⊢
    split at hok
    next e heq => cases hok
    next mb heq =>
      rw [heq]
      refine ⟨mb, rfl, ?_⟩
      unfold storage.CreateMessage at hok ⊢
      dsimp only at hok ⊢
      by_cases hdup : (db.messages.any fun r =>
          r.mailboxID == mb.id && r.uid == (0 : Nat)) = true
      · rw [if_pos hdup] at hok
        cases hok
      · rw [if_neg hdup]

/-- Witness for `c9_size_bound`: a payload one byte over 1 MiB is rejected
with the store unchanged, and a 2-byte payload is committed in full to
alice's INBOX. -/
theorem c9_witness :
    (server.SMTPServer.ReceiveData c9cfg aliceDB 0 aliceUser "bob@example.com"
        ["alice@example.com"] (List.replicate (1024 * 1024 + 1) 'a')
      = (aliceDB, .error .tooLarge)) ∧
    ((server.SMTPSession.Data aliceDB 0 aliceUser "bob@example.com"
        ["alice@example.com"] ['h', 'i']).1.messages
      = aliceDB.messages
          ++ [{ id := aliceDB.nextMessageID, mailboxID := 1, uid := 0,
                from_addr := "bob@example.com",
                to_addr := String.intercalate "," ["alice@example.com"], cc := "",
                subject := "", date := 0, body := ['h', 'i'],
                rawData := ['h', 'i'], flags := "",
                size := ((['h', 'i'] : List Char).length : Int), seen := false,
                deleted := false, draft := false, created := 0 }]) := by
  constructor
  · exact (c9_size_bound c9cfg aliceDB 0 aliceUser "bob@example.com"
        ["alice@example.com"] (List.replicate (1024 * 1024 + 1) 'a')).1
      (by rw [List.length_replicate]; omega)
  · obtain ⟨mb, hmb, hmsgs⟩ := (c9_size_bound c9cfg aliceDB 0 aliceUser "bob@example.com"
        ["alice@example.com"] ['h', 'i']).2.2 1 (by decide)
    have hmbeq : mb = ⟨1, 1, "INBOX", "INBOX"⟩ := by
      have h2 : (Except.ok (⟨1, 1, "INBOX", "INBOX"⟩ : storage.Mailbox)
          : Except storage.Err storage.Mailbox) = .ok mb :=
        (show storage.GetMailbox aliceDB aliceUser.id "INBOX"
            = .ok ⟨1, 1, "INBOX", "INBOX"⟩ from by decide).symm.trans hmb
      injection h2 with h3
      exact h3.symm
    rw [hmsgs, hmbeq]

theorem expunge_foldl (ps : List storage.Message) :
    ∀ db0 : storage.DB,
      (ps.foldl (fun acc msg =>
          if msg.deleted then storage.DeleteMessage acc msg.id else acc) db0).messages
        = db0.messages.filter
            (fun r => !(ps.any (fun m => m.deleted && m.id == r.id))) := by
  induction ps with
  | nil => intro db0; simp
  | cons m ps ih =>
    intro db0
    rw [List.foldl_cons]
    by_cases hd : m.deleted = true
    · rw [if_pos hd, ih]
      show ((db0.messages.filter fun r => !(r.id == m.id)).filter _) = _
      rw [List.filter_filter]
      refine List.filter_congr ?_
      intro r _
      by_cases h1 : r.id = m.id <;>
        by_cases h2 : (ps.any fun mm => mm.deleted && mm.id == r.id) = true <;>
          simp [h1, h2, hd, eq_comm] <;> omega
    · rw [if_neg hd, ih]
      refine List.filter_congr ?_
      intro r _
      have hd' : m.deleted = false := by
        cases hmd : m.deleted
        · rfl
        · exact absurd hmd hd
      simp [hd']

theorem expunge_foldl_id (ps : List storage.Message) (h : ∀ m ∈ ps, m.deleted = false) :
    ∀ db0 : storage.DB,
      ps.foldl (fun acc msg =>
          if msg.deleted then storage.DeleteMessage acc msg.id else acc) db0 = db0 := by
  induction ps with
  | nil => intro db0; rfl
  | cons m ps ih =>
    intro db0
    rw [List.foldl_cons, if_neg (by simp [h m (List.mem_cons_self m ps)])]
    exact ih (fun mm hmm => h mm (List.mem_cons_of_mem m hmm)) db0

theorem foldl_if_filter {α β : Type} (p : α → Bool) (f : β → α → β) :
    ∀ (l : List α) (b : β),
      l.foldl (fun acc x => if p x then f acc x else acc) b = (l.filter p).foldl f b := by
  intro l
  induction l with
  | nil => intro b; rfl
  | cons x xs ih =>
    intro b
    rw [List.foldl_cons, List.filter_cons]
    by_cases hx : p x = true
    · rw [if_pos hx, if_pos hx, List.foldl_cons]
      exact ih (f b x)
    · rw [if_neg hx, if_neg hx]
      exact ih b

/-- C6: Expunge deletes exactly the messages of the mailbox whose `deleted`
flag is set; it walks them in ascending stored-UID order (the deletions are
the fold of `DeleteMessage` over the deleted-flagged part of the listing,
which is strictly ascending in UID); and it is idempotent — a second run with
no intervening flag changes leaves the entire store unchanged. -/
theorem c6_expunge_exact_and_idempotent (db : storage.DB) (mailboxID : Int)
    (h : db.WF) :
    ((server.IMAPMailbox.Expunge db mailboxID).messages
      = db.messages.filter (fun r => !(r.mailboxID == mailboxID && r.deleted))) ∧
    (server.IMAPMailbox.Expunge (server.IMAPMailbox.Expunge db mailboxID) mailboxID
      = server.IMAPMailbox.Expunge db mailboxID) ∧
    (server.IMAPMailbox.Expunge db mailboxID
      = ((storage.ListMessages db mailboxID).filter (fun r => r.deleted)).foldl
          (fun acc msg => storage.DeleteMessage acc msg.id) db) ∧
    (((storage.ListMessages db mailboxID).filter (fun r => r.deleted)).Pairwise
      (fun a b => a.uid < b.uid)) := by
  have hchar : (server.IMAPMailbox.Expunge db mailboxID).messages
      = db.messages.filter (fun r => !(r.mailboxID == mailboxID && r.deleted)) := by
    unfold server.IMAPMailbox.Expunge
    rw [expunge_foldl]
    refine List.filter_congr ?_
    intro r hr
    suffices hs : ((storage.ListMessages db mailboxID).any
        (fun m => m.deleted && m.id == r.id)) = (r.mailboxID == mailboxID && r.deleted) by
      rw [hs]
    by_cases hcase : r.mailboxID = mailboxID ∧ r.deleted = true
    · have hany : ((storage.ListMessages db mailboxID).any
          (fun m => m.deleted && m.id == r.id)) = true := by
        rw [List.any_eq_true]
        exact ⟨r, storage.mem_listMessages.mpr ⟨hr, hcase.1⟩, by simp [hcase.2]⟩
      rw [hany]
      simp [hcase.1, hcase.2]
    · have hany : ((storage.ListMessages db mailboxID).any
          (fun m => m.deleted && m.id == r.id)) = false := by
        rw [List.any_eq_false]
        rintro mm hmm
        rcases storage.mem_listMessages.mp hmm with ⟨hmem, hmb⟩
        by_cases hid : mm.id = r.id
        · have : mm = r := List.inj_on_of_nodup_map h.1 hmem hr hid
          subst this
          simp only [Bool.and_eq_true, beq_iff_eq, not_and]
          intro hdel _
          exact hcase ⟨hmb, hdel⟩
        · simp [hid]
      rw [hany]
      have : ¬(r.mailboxID = mailboxID ∧ r.deleted = true) := hcase
      by_cases hmb : r.mailboxID = mailboxID
      · have hdel : r.deleted = false := by
          cases hrd : r.deleted
          · rfl
          · exact absurd ⟨hmb, hrd⟩ hcase
        simp [hmb, hdel]
      · simp [hmb]
  refine ⟨hchar, ?_, ?_, ?_⟩
  · have hnone : ∀ mm ∈ storage.ListMessages
        (server.IMAPMailbox.Expunge db mailboxID) mailboxID, mm.deleted = false := by
      intro mm hmm
      rcases storage.mem_listMessages.mp hmm with ⟨hmem, hmb⟩
      rw [hchar] at hmem
      rcases List.mem_filter.mp hmem with ⟨_, hcond⟩
      simp only [Bool.not_eq_eq_eq_not, Bool.not_true, Bool.and_eq_false_imp,
        beq_iff_eq] at hcond
      exact hcond hmb
    conv =>
      lhs
      unfold server.IMAPMailbox.Expunge
    exact expunge_foldl_id _ hnone _
  · unfold server.IMAPMailbox.Expunge
    exact foldl_if_filter _ _ _ db
  · exact (storage.listMessages_sorted_strict h mailboxID).sublist
      (List.filter_sublist _)

/-- Witness for `c6_expunge_exact_and_idempotent`: alice's INBOX holding two
messages with the deleted flag set on UID 1 only; Expunge removes exactly that
message and a second Expunge is a no-op. -/
theorem c6_witness :
    ((server.IMAPMailbox.Expunge c6db 1).messages
      = c6db.messages.filter (fun r => !(r.mailboxID == 1 && r.deleted))) ∧
    (server.IMAPMailbox.Expunge (server.IMAPMailbox.Expunge c6db 1) 1
      = server.IMAPMailbox.Expunge c6db 1) ∧
    (server.IMAPMailbox.Expunge c6db 1
      = ((storage.ListMessages c6db 1).filter (fun r => r.deleted)).foldl
          (fun acc msg => storage.DeleteMessage acc msg.id) c6db) ∧
    (((storage.ListMessages c6db 1).filter (fun r => r.deleted)).Pairwise
      (fun a b => a.uid < b.uid)) :=
  c6_expunge_exact_and_idempotent c6db 1 (by decide)

theorem applyFlagLoop_eq (flags : List String) :
    ∀ s d dr : Bool,
      server.applyFlagLoop (s, d, dr) flags
        = (s || flags.contains server.SeenFlag,
           d || flags.contains server.DeletedFlag,
           dr || flags.contains server.DraftFlag) := by
  have hsd : decide (server.SeenFlag = server.DeletedFlag) = false := by decide
  have hsr : decide (server.SeenFlag = server.DraftFlag) = false := by decide
  have hds : decide (server.DeletedFlag = server.SeenFlag) = false := by decide
  have hdr : decide (server.DeletedFlag = server.DraftFlag) = false := by decide
  have hrs : decide (server.DraftFlag = server.SeenFlag) = false := by decide
  have hrd : decide (server.DraftFlag = server.DeletedFlag) = false := by decide
  induction flags with
  | nil => intro s d dr; simp [server.applyFlagLoop]
  | cons f rest ih =>
    intro s d dr
    unfold server.applyFlagLoop
    by_cases h1 : (f == server.SeenFlag) = true
    · rw [if_pos h1, ih]
      have hf : f = server.SeenFlag := eq_of_beq h1
      subst hf
      simp [List.contains_cons, hds, hrs]
    · rw [if_neg h1]
      by_cases h2 : (f == server.DeletedFlag) = true
      · rw [if_pos h2, ih]
        have hf : f = server.DeletedFlag := eq_of_beq h2
        subst hf
        simp [List.contains_cons, hsd, hrd]
      · rw [if_neg h2]
        by_cases h3 : (f == server.DraftFlag) = true
        · rw [if_pos h3, ih]
          have hf : f = server.DraftFlag := eq_of_beq h3
          subst hf
          simp [List.contains_cons, hsr, hdr]
        · rw [if_neg h3, ih]
          have hb1 : decide (server.SeenFlag = f) = false := by
            rw [decide_eq_false_iff_not]
            intro hEq
            exact h1 (beq_iff_eq.mpr hEq.symm)
          have hb2 : decide (server.DeletedFlag = f) = false := by
            rw [decide_eq_false_iff_not]
            intro hEq
            exact h2 (beq_iff_eq.mpr hEq.symm)
          have hb3 : decide (server.DraftFlag = f) = false := by
            rw [decide_eq_false_iff_not]
            intro hEq
            exact h3 (beq_iff_eq.mpr hEq.symm)
          simp [List.contains_cons, hb1, hb2, hb3]

theorem updateMessagesFlags_foldl (seqSet : server.SeqSet) (flags : List String) :
    ∀ (ps : List (Nat × storage.Message)) (db0 : storage.DB),
      (ps.foldl (fun acc p =>
          if seqSet (p.1 + 1) then
            storage.UpdateMessageFlags acc p.2.id ""
              (server.applyFlagLoop (p.2.seen, p.2.deleted, p.2.draft) flags).1
              (server.applyFlagLoop (p.2.seen, p.2.deleted, p.2.draft) flags).2.1
              (server.applyFlagLoop (p.2.seen, p.2.deleted, p.2.draft) flags).2.2
          else acc) db0).messages
        = db0.messages.map (fun r => ps.foldl (flagRowStep seqSet flags) r) := by
  intro ps
  induction ps with
  | nil =>
    intro db0
    simp
  | cons p ps ih =>
    intro db0
    rw [List.foldl_cons]
    by_cases hs : seqSet (p.1 + 1) = true
    · rw [if_pos hs, ih]
      unfold storage.UpdateMessageFlags
      rw [List.map_map]
      refine List.map_congr_left ?_
      intro r _
      rw [List.foldl_cons]
      show ps.foldl (flagRowStep seqSet flags)
          (if r.id == p.2.id then _ else r) = _
      have hrow : (if r.id == p.2.id then
            { r with
              flags := "",
              seen := (server.applyFlagLoop (p.2.seen, p.2.deleted, p.2.draft) flags).1,
              deleted := (server.applyFlagLoop (p.2.seen, p.2.deleted, p.2.draft) flags).2.1,
              draft := (server.applyFlagLoop (p.2.seen, p.2.deleted, p.2.draft) flags).2.2 }
          else r) = flagRowStep seqSet flags r p := by
        unfold flagRowStep
        rw [hs]
        simp
      rw [hrow]
    · have hs' : seqSet (p.1 + 1) = false := by
        cases hx : seqSet (p.1 + 1)
        · rfl
        · exact absurd hx hs
      rw [if_neg hs, ih]
      refine List.map_congr_left ?_
      intro r _
      rw [List.foldl_cons]
      have hrow : flagRowStep seqSet flags r p = r := by
        unfold flagRowStep
        rw [hs']
        simp
      rw [hrow]

theorem flagRowStep_foldl_id (seqSet : server.SeqSet) (flags : List String) :
    ∀ (ps : List (Nat × storage.Message)) (x : storage.Message),
      (∀ q ∈ ps, (x.id == q.2.id) = false) →
      ps.foldl (flagRowStep seqSet flags) x = x := by
  intro ps
  induction ps with
  | nil => intro x _; rfl
  | cons p ps ih =>
    intro x hx
    rw [List.foldl_cons]
    have hrow : flagRowStep seqSet flags x p = x := by
      unfold flagRowStep
      rw [hx p (List.mem_cons_self p ps)]
      simp
    rw [hrow]
    exact ih x (fun q hq => hx q (List.mem_cons_of_mem p hq))

theorem flagRowStep_foldl_eq (seqSet : server.SeqSet) (flags : List String) :
    ∀ (ps : List (Nat × storage.Message)) (r : storage.Message),
      (∀ p ∈ ps, p.2.id = r.id → p.2 = r) →
      ((ps.map (fun p => p.2.id)).Nodup) →
      ps.foldl (flagRowStep seqSet flags) r
        = if ps.any (fun p => seqSet (p.1 + 1) && r.id == p.2.id) then
            { r with
              flags := "",
              seen := r.seen || flags.contains server.SeenFlag,
              deleted := r.deleted || flags.contains server.DeletedFlag,
              draft := r.draft || flags.contains server.DraftFlag }
          else r := by
  intro ps
  induction ps with
  | nil =>
    intro r _ _
    simp
  | cons p ps ih =>
    intro r hinj hnd
    rw [List.foldl_cons, List.any_cons]
    by_cases hc : (seqSet (p.1 + 1) && r.id == p.2.id) = true
    · have hid : r.id = p.2.id := by
        have hboth := hc
        simp only [Bool.and_eq_true] at hboth
        exact eq_of_beq hboth.2
      have hpr : p.2 = r := hinj p (List.mem_cons_self p ps) hid.symm
      have hrow : flagRowStep seqSet flags r p
          = { r with
              flags := "",
              seen := r.seen || flags.contains server.SeenFlag,
              deleted := r.deleted || flags.contains server.DeletedFlag,
              draft := r.draft || flags.contains server.DraftFlag } := by
        unfold flagRowStep
        rw [if_pos hc, hpr, applyFlagLoop_eq]
      rw [hrow]
      have hdone : ∀ q ∈ ps,
          (({ r with
              flags := "",
              seen := r.seen || flags.contains server.SeenFlag,
              deleted := r.deleted || flags.contains server.DeletedFlag,
              draft := r.draft || flags.contains server.DraftFlag }
              : storage.Message).id == q.2.id) = false := by
        intro q hq
        have hne : p.2.id ≠ q.2.id := by
          rcases List.nodup_cons.mp hnd with ⟨hnotin, _⟩
          intro hcontra
          have hmem : q.2.id ∈ ps.map (fun p => p.2.id) :=
            List.mem_map_of_mem (fun p => p.2.id) hq
          rw [← hcontra] at hmem
          exact hnotin hmem
        show (r.id == q.2.id) = false
        rw [hid]
        cases hx : (p.2.id == q.2.id)
        · rfl
        · exact absurd (eq_of_beq hx) hne
      rw [flagRowStep_foldl_id seqSet flags ps _ hdone, hc]
      simp
    · have hc' : (seqSet (p.1 + 1) && r.id == p.2.id) = false := by
        cases hx : (seqSet (p.1 + 1) && r.id == p.2.id)
        · rfl
        · exact absurd hx hc
      have hrow : flagRowStep seqSet flags r p = r := by
        unfold flagRowStep
        rw [if_neg hc]
      rw [hrow, hc']
      rw [ih r (fun q hq h => hinj q (List.mem_cons_of_mem p hq) h)
        (List.nodup_cons.mp hnd).2]
      rw [Bool.false_or]

/-- C7: for every flag-update request, every message whose sequence number
falls in the requested set gets each system flag named in the request set to
true while its other booleans keep their previous values (the `flags` text
column, which no reader consults, is reset to `""`), and every message whose
sequence number is outside the requested set — in particular every message of
other mailboxes — is left entirely unchanged; no boolean flag is ever
cleared. -/
theorem c7_flag_update_frame (db : storage.DB) (mailboxID : Int) (uidMode : Bool)
    (seqSet : server.SeqSet) (operation : server.FlagsOp) (flags : List String)
    (h : db.WF) :
    ((server.IMAPMailbox.UpdateMessagesFlags db mailboxID uidMode seqSet operation
        flags).messages
      = db.messages.map (fun r =>
          if (storage.ListMessages db mailboxID).enum.any
              (fun p => seqSet (p.1 + 1) && r.id == p.2.id) then
            { r with
              flags := "",
              seen := r.seen || flags.contains server.SeenFlag,
              deleted := r.deleted || flags.contains server.DeletedFlag,
              draft := r.draft || flags.contains server.DraftFlag }
          else r)) ∧
    (∀ r ∈ db.messages, r.mailboxID ≠ mailboxID →
      ((storage.ListMessages db mailboxID).enum.any
          (fun p => seqSet (p.1 + 1) && r.id == p.2.id)) = false) := by
  have hmemlist : ∀ p ∈ (storage.ListMessages db mailboxID).enum,
      p.2 ∈ db.messages ∧ p.2.mailboxID = mailboxID := by
    intro p hp
    exact storage.mem_listMessages.mp (List.snd_mem_of_mem_enum hp)
  constructor
  · have hdef : server.IMAPMailbox.UpdateMessagesFlags db mailboxID uidMode seqSet
        operation flags
        = ((storage.ListMessages db mailboxID).enum.foldl
            (fun acc p =>
              if seqSet (p.1 + 1) then
                storage.UpdateMessageFlags acc p.2.id ""
                  (server.applyFlagLoop (p.2.seen, p.2.deleted, p.2.draft) flags).1
                  (server.applyFlagLoop (p.2.seen, p.2.deleted, p.2.draft) flags).2.1
                  (server.applyFlagLoop (p.2.seen, p.2.deleted, p.2.draft) flags).2.2
              else acc) db) := rfl
    rw [hdef, updateMessagesFlags_foldl]
    refine List.map_congr_left ?_
    intro r hr
    have hndl := storage.listMessages_ids_nodup h mailboxID
    have hnd : ((storage.ListMessages db mailboxID).enum.map (fun p => p.2.id)).Nodup := by
      have hsnd : (storage.ListMessages db mailboxID).enum.map Prod.snd
          = storage.ListMessages db mailboxID := List.enum_map_snd _
      rw [← hsnd, List.map_map] at hndl
      exact hndl
    have hinj : ∀ p ∈ (storage.ListMessages db mailboxID).enum, p.2.id = r.id → p.2 = r := by
      intro p hp hpid
      exact List.inj_on_of_nodup_map h.1 (hmemlist p hp).1 hr hpid
    exact flagRowStep_foldl_eq seqSet flags _ r hinj hnd
  · intro r hr hrm
    rw [List.any_eq_false]
    intro p hp
    intro hcond
    simp only [Bool.and_eq_true] at hcond
    have hpr : p.2 = r :=
      List.inj_on_of_nodup_map h.1 (hmemlist p hp).1 hr (eq_of_beq hcond.2).symm
    exact hrm (hpr ▸ (hmemlist p hp).2)

/-- Witness for `c7_flag_update_frame`: adding `\Seen` to sequence number 1 of
alice's two-message INBOX. -/
theorem c7_witness :
    ((server.IMAPMailbox.UpdateMessagesFlags c7db 1 false (fun n => n == 1) .add
        [server.SeenFlag]).messages
      = c7db.messages.map (fun r =>
          if (storage.ListMessages c7db 1).enum.any
              (fun p => (p.1 + 1 == 1) && r.id == p.2.id) then
            { r with
              flags := "",
              seen := r.seen || [server.SeenFlag].contains server.SeenFlag,
              deleted := r.deleted || [server.SeenFlag].contains server.DeletedFlag,
              draft := r.draft || [server.SeenFlag].contains server.DraftFlag }
          else r)) ∧
    (∀ r ∈ c7db.messages, r.mailboxID ≠ 1 →
      ((storage.ListMessages c7db 1).enum.any
          (fun p => (p.1 + 1 == 1) && r.id == p.2.id)) = false) :=
  c7_flag_update_frame c7db 1 false (fun n => n == 1) .add [server.SeenFlag] (by decide)

/-- C8 counterexample: on the SQLite backend — opened without foreign-key
enforcement — the original both-backends cascade-closure claim is false at
`c8db`: after `DeleteUser 1` the mailbox owned by user 1 remains, after
`DeleteMailbox 1` the message of mailbox 1 remains, and after
`DeleteMessage 2` the attachment of message 2 remains. -/
theorem c8_counterexample :
    ¬ ((∀ mb ∈ (storage.SQLiteStorage.DeleteUser c8db 1).mailboxes, mb.userID ≠ 1) ∧
       (∀ msg ∈ (storage.SQLiteStorage.DeleteMailbox c8db 1).messages,
         msg.mailboxID ≠ 1) ∧
       (∀ att ∈ (storage.SQLiteStorage.DeleteMessage c8db 2).attachments,
         att.messageID ≠ 2)) := by
  decide

/-- C8 as amended: deletion cascades over ownership on the Postgres backend,
whose engine enforces the declared `ON DELETE CASCADE` foreign keys — after
`deleteUser(u)` no mailbox owned by u and no message or attachment
transitively contained in u's mailboxes remains, after `deleteMailbox(m)` no
message of m remains, after `deleteMessage(msg)` no attachment of msg remains.
On the SQLite backend foreign-key enforcement is never enabled (plain
`sql.Open("sqlite3", path)` DSN, no PRAGMA), so each delete removes only the
directly targeted row: the owner's mailboxes, the mailbox's messages and the
message's attachments all remain. -/
theorem c8_cascade_postgres_only (db : storage.DB) (userID mailboxID messageID : Int) :
    ((∀ u ∈ (storage.DeleteUser db userID).users, u.id ≠ userID) ∧
     (∀ mb ∈ (storage.DeleteUser db userID).mailboxes, mb.userID ≠ userID) ∧
     (∀ msg ∈ (storage.DeleteUser db userID).messages,
       ∀ mb ∈ db.mailboxes, mb.userID = userID → msg.mailboxID ≠ mb.id) ∧
     (∀ att ∈ (storage.DeleteUser db userID).attachments,
       ∀ msg ∈ db.messages, ∀ mb ∈ db.mailboxes,
         mb.userID = userID → msg.mailboxID = mb.id → att.messageID ≠ msg.id) ∧
     (∀ msg ∈ (storage.DeleteMailbox db mailboxID).messages, msg.mailboxID ≠ mailboxID) ∧
     (∀ att ∈ (storage.DeleteMailbox db mailboxID).attachments,
       ∀ msg ∈ db.messages, msg.mailboxID = mailboxID → att.messageID ≠ msg.id) ∧
     (∀ att ∈ (storage.DeleteMessage db messageID).attachments,
       att.messageID ≠ messageID)) ∧
    (((storage.SQLiteStorage.DeleteUser db userID).mailboxes = db.mailboxes) ∧
     ((storage.SQLiteStorage.DeleteUser db userID).messages = db.messages) ∧
     ((storage.SQLiteStorage.DeleteUser db userID).attachments = db.attachments) ∧
     ((storage.SQLiteStorage.DeleteMailbox db mailboxID).messages = db.messages) ∧
     ((storage.SQLiteStorage.DeleteMailbox db mailboxID).attachments = db.attachments) ∧
     ((storage.SQLiteStorage.DeleteMessage db messageID).attachments = db.attachments)) :=
  ⟨postgres_cascade_closure db userID mailboxID messageID,
   rfl, rfl, rfl, rfl, rfl, rfl⟩

/-- Witness for `c8_cascade_postgres_only` on `c8db` with user 1, mailbox 1
and message 1: after the Postgres-side deletions carol's surviving user row,
mailbox, message and attachment satisfy each absence property, while the
SQLite-side deletes leave the non-targeted tables untouched. -/
theorem c8_witness :
    ((⟨2, "carol", "pw", "Carol", "carol@example.com", 0, 0⟩ : storage.User).id ≠ 1) ∧
    ((⟨5, 2, "INBOX", "INBOX"⟩ : storage.Mailbox).userID ≠ 1) ∧
    ((⟨2, 5, 1, "bob@example.com", "alice@example.com", "", "", 0, [], [], "", 0,
        false, false, false, 0⟩ : storage.Message).mailboxID ≠ 1) ∧
    ((⟨1, 2, "f.txt", "text/plain", [], 0, 0⟩ : storage.Attachment).messageID ≠ 1) ∧
    ((⟨2, 5, 1, "bob@example.com", "alice@example.com", "", "", 0, [], [], "", 0,
        false, false, false, 0⟩ : storage.Message).mailboxID ≠ 1) ∧
    ((⟨1, 2, "f.txt", "text/plain", [], 0, 0⟩ : storage.Attachment).messageID ≠ 1) ∧
    ((⟨1, 2, "f.txt", "text/plain", [], 0, 0⟩ : storage.Attachment).messageID ≠ 1) ∧
    ((storage.SQLiteStorage.DeleteUser c8db 1).mailboxes = c8db.mailboxes) := by
  have A := c8_cascade_postgres_only c8db 1 1 1
  refine ⟨A.1.1 _ (by decide), A.1.2.1 _ (by decide), ?_, ?_, ?_, ?_, ?_, A.2.1⟩
  · exact A.1.2.2.1 _ (by decide) ⟨1, 1, "INBOX", "INBOX"⟩ (by decide) rfl
  · exact A.1.2.2.2.1 _ (by decide)
      ⟨1, 1, 1, "bob@example.com", "alice@example.com", "", "", 0, [], [], "", 0,
        false, false, false, 0⟩ (by decide) ⟨1, 1, "INBOX", "INBOX"⟩ (by decide) rfl rfl
  · exact A.1.2.2.2.2.1 _ (by decide)
  · exact A.1.2.2.2.2.2.1 _ (by decide)
      ⟨1, 1, 1, "bob@example.com", "alice@example.com", "", "", 0, [], [], "", 0,
        false, false, false, 0⟩ (by decide) rfl
  · exact A.1.2.2.2.2.2.2 _ (by decide)

/-- Witness for `c10_uid_is_message_id` on alice's two-message INBOX with an
all-inclusive sequence set and the UID fetch item requested. -/
theorem c10_witness :
    ((server.IMAPMailbox.ListMessages c7db 1 false (fun _ => true)
        [server.FetchItem.uid]).map (fun im => im.uid)
      = ((storage.ListMessages c7db 1).enum.filter (fun p => (fun _ => true) (p.1 + 1))).map
          (fun p => server.u32 p.2.id)) ∧
    (∃ msg ∈ storage.ListMessages c7db 1,
      ((⟨1, 1, [(server.FetchItem.uid, server.FetchData.uidData 1)]⟩
          : server.ImapMessage)).uid = server.u32 msg.id ∧
      server.FetchData.uidData 1 = .uidData msg.id) := by
  have A := c10_uid_is_message_id c7db 1 false (fun _ => true) [server.FetchItem.uid] {}
  refine ⟨A.1, ?_⟩
  exact A.2.1 ⟨1, 1, [(server.FetchItem.uid, server.FetchData.uidData 1)]⟩ (by decide)
    (server.FetchData.uidData 1) (by decide)
